import Mathlib

/-!
Verification of `Sudoku-Validator.c` (a multithreaded 9x9 Sudoku solution
checker) against its design specification.

The program is embedded shallowly:

* the C grid `int sudoku[SIZE][SIZE]` (SIZE = 9) becomes `Grid`;
* the scanning loop shared by `checkRow`, `checkColumn` and `checkSubgrid`
  (`if (num < 1 || num > SIZE || check[num-1]++) ... pthread_exit`) becomes
  `scanOk` (the verdict) and `scanCount` (how many cells the loop inspects
  before it stops);
* the 27 threads' writes into the global `validationResult results[27]`
  become an explicit write list applied to the zero-initialized table, and
  `main`'s aggregation loop becomes `overallLoop`;
* `loadSudoku` (which never checks `fscanf`'s result) becomes a function
  from the stream of integers the file yields, cells beyond the stream
  keeping whatever the in-memory array held;
* `main`'s argument check, `loadSudoku`'s `fopen` check, and the final
  `EXIT_SUCCESS` become `runSudokuValidator` over a small input record.
-/

namespace SudokuValidator

/-- C: `int sudoku[SIZE][SIZE]` with `SIZE = 9`; read-only during checks. -/
abbrev Grid : Type := Fin 9 → Fin 9 → Int

/-- C struct `validationResult`: `int valid` (0 invalid, 1 valid) and
`char message[100]`. -/
structure validationResult where
  valid : Nat
  message : String
  deriving DecidableEq

/-- The verdict of the scanning loop shared by all three check functions,
over the unit's cells in scan order.  C (checkRow, lines 57-75):
`if (num < 1 || num > SIZE || check[num-1]++) { ... INVALID ...; pthread_exit }`
— `seen` lists the values whose `check[num-1]` counter is already nonzero. -/
def scanOk : List Int → List Int → Bool
  | [], _ => true
  | n :: rest, seen =>
    if n < 1 ∨ 9 < n ∨ n ∈ seen then false
    else scanOk rest (n :: seen)

/-- How many cells the same loop inspects before returning: it reads the
failing cell and exits the thread, or reads all cells and reports valid. -/
def scanCount : List Int → List Int → Nat
  | [], _ => 0
  | n :: rest, seen =>
    if n < 1 ∨ 9 < n ∨ n ∈ seen then 1
    else 1 + scanCount rest (n :: seen)

/-- One of the 27 logical check units: 9 rows, 9 columns, 9 subgrids
(a subgrid is named by its block row and block column in 0..2). -/
inductive CheckUnit where
  | row (i : Fin 9)
  | col (i : Fin 9)
  | subgrid (br bc : Fin 3)
  deriving DecidableEq

/-- The block (of three) a row or column index falls in. -/
def blockOf (i : Fin 9) : Fin 3 :=
  ⟨i.val / 3, by have h := i.isLt; omega⟩

/-- The cells of the subgrid whose top-left corner is (3·br, 3·bc), in the
order checkSubgrid's two nested loops visit them (lines 154-169: `row` from
`rowStart`, inner `col` from `colStart`). -/
def subgridPositions (br bc : Fin 3) : List (Fin 9 × Fin 9) :=
  (List.finRange 3).flatMap fun dr =>
    (List.finRange 3).map fun dc =>
      (⟨3 * br.val + dr.val, by have h1 := br.isLt; have h2 := dr.isLt; omega⟩,
       ⟨3 * bc.val + dc.val, by have h1 := bc.isLt; have h2 := dc.isLt; omega⟩)

/-- The cell positions a unit scans, in scan order: checkRow's loop visits
(row, 0..8), checkColumn's (0..8, col), checkSubgrid's its 3x3 block. -/
def unitPositions : CheckUnit → List (Fin 9 × Fin 9)
  | .row i => (List.finRange 9).map fun c => (i, c)
  | .col i => (List.finRange 9).map fun r => (r, i)
  | .subgrid br bc => subgridPositions br bc

/-- The values a unit scans, in scan order. -/
def unitCells (g : Grid) (u : CheckUnit) : List Int :=
  (unitPositions u).map fun p => g p.1 p.2

/-- The verdict a unit's thread computes on a grid. -/
def unitValid (g : Grid) (u : CheckUnit) : Bool :=
  scanOk (unitCells g u) []

/-- C's `%2d`: decimal, space-padded on the left to width two (the thread
numbers 1..27 all fit in two characters). -/
def fmt2 (n : Nat) : String :=
  if n < 10 then " " ++ toString n else toString n

/-- The verdict word the sprintf formats end in. -/
def verdictStr (ok : Bool) : String :=
  if ok then "is valid" else "is INVALID"

/-- checkRow's sprintf, lines 66 and 82:
`"Thread # %2d (row %d) is INVALID\n"` with `row+1, row+1`. -/
def rowMsg (row : Fin 9) (ok : Bool) : String :=
  "Thread # " ++ fmt2 (row.val + 1) ++ " (row " ++ toString (row.val + 1) ++ ") "
    ++ verdictStr ok ++ "\n"

/-- checkColumn's sprintf, lines 113 and 125:
`"Thread # %2d (column %d) is INVALID\n"` with `col+10, col+1`. -/
def colMsg (col : Fin 9) (ok : Bool) : String :=
  "Thread # " ++ fmt2 (col.val + 10) ++ " (column " ++ toString (col.val + 1) ++ ") "
    ++ verdictStr ok ++ "\n"

/-- checkSubgrid's slot computation, line 151:
`int index = (rowStart / 3) * 3 + (colStart / 3) + (2 * SIZE);`. -/
def subgridIndexChecker (rowStart colStart : Nat) : Nat :=
  rowStart / 3 * 3 + colStart / 3 + 2 * 9

/-- main's slot computation for subgrid threads, line 274 (`i` and `j` step
over 0, 3, 6): `int index = 2*SIZE + (i + j/3);`. -/
def subgridIndexMain (i j : Nat) : Nat :=
  2 * 9 + (i + j / 3)

/-- checkSubgrid's sprintf, lines 163 and 177:
`"Thread # %2d (subgrid %d) is INVALID\n"` with `index+1, index-(2*SIZE)+1`. -/
def subgridMsg (br bc : Fin 3) (ok : Bool) : String :=
  "Thread # " ++ fmt2 (subgridIndexChecker (3 * br.val) (3 * bc.val) + 1)
    ++ " (subgrid " ++ toString (subgridIndexChecker (3 * br.val) (3 * bc.val) - 2 * 9 + 1)
    ++ ") " ++ verdictStr ok ++ "\n"

/-- C `checkRow` (lines 51-87): scan row `row`, write verdict and message. -/
def checkRow (g : Grid) (row : Fin 9) : validationResult :=
  { valid := if scanOk (unitCells g (.row row)) [] then 1 else 0
    message := rowMsg row (scanOk (unitCells g (.row row)) []) }

/-- C `checkColumn` (lines 100-130). -/
def checkColumn (g : Grid) (col : Fin 9) : validationResult :=
  { valid := if scanOk (unitCells g (.col col)) [] then 1 else 0
    message := colMsg col (scanOk (unitCells g (.col col)) []) }

/-- C `checkSubgrid` (lines 143-182), for the subgrid with
`rowStart = 3*br`, `colStart = 3*bc`. -/
def checkSubgrid (g : Grid) (br bc : Fin 3) : validationResult :=
  { valid := if scanOk (unitCells g (.subgrid br bc)) [] then 1 else 0
    message := subgridMsg br bc (scanOk (unitCells g (.subgrid br bc)) []) }

/-- The outcome the unit's thread writes into its slot. -/
def outcomeOf (g : Grid) : CheckUnit → validationResult
  | .row i => checkRow g i
  | .col i => checkColumn g i
  | .subgrid br bc => checkSubgrid g br bc

/-- The slot in `results[27]` each unit writes: rows write `results[row]`
(line 67), columns `results[SIZE + col]` (line 114), subgrids
`results[index]` with checkSubgrid's `index` (line 151). -/
def slotOf : CheckUnit → Fin 27
  | .row i => ⟨i.val, by have h := i.isLt; omega⟩
  | .col i => ⟨9 + i.val, by have h := i.isLt; omega⟩
  | .subgrid br bc =>
    ⟨subgridIndexChecker (3 * br.val) (3 * bc.val), by
      have h1 := br.isLt; have h2 := bc.isLt
      show 3 * br.val / 3 * 3 + 3 * bc.val / 3 + 2 * 9 < 27
      omega⟩

/-- The unit owning a slot (rows 0-8, columns 9-17, subgrids 18-26
row-major by block). -/
def unitOfSlot (s : Fin 27) : CheckUnit :=
  if h : s.val < 9 then .row ⟨s.val, h⟩
  else if h2 : s.val < 18 then .col ⟨s.val - 9, by omega⟩
  else .subgrid ⟨(s.val - 18) / 3, by have h3 := s.isLt; omega⟩
    ⟨(s.val - 18) % 3, by omega⟩

/-- All 27 units in the order main creates their threads (lines 257-280):
row and column checkers interleaved by index, then subgrids row-major. -/
def allUnits : List CheckUnit :=
  (List.finRange 9).map CheckUnit.row ++ (List.finRange 9).map CheckUnit.col
    ++ ((List.finRange 3).flatMap fun br => (List.finRange 3).map (CheckUnit.subgrid br))

/-- The global `validationResult results[NUM_THREADS]` before any thread runs:
a C object with static storage duration is zero-initialized, so every slot
holds `valid = 0` and an empty message. -/
def initResults : Fin 27 → validationResult :=
  fun _ => { valid := 0, message := "" }

/-- The write each thread performs: its slot and the outcome it stores. -/
def writes (g : Grid) : List (Fin 27 × validationResult) :=
  allUnits.map fun u => (slotOf u, outcomeOf g u)

/-- Applying a list of slot writes to the results table in order. -/
def applyWrites (t : Fin 27 → validationResult) :
    List (Fin 27 × validationResult) → (Fin 27 → validationResult)
  | [] => t
  | (s, v) :: rest => applyWrites (Function.update t s v) rest

/-- The results table after all 27 threads are joined. -/
def finalResults (g : Grid) : Fin 27 → validationResult :=
  applyWrites initResults (writes g)

/-- main's aggregation loop (lines 288-294): `isValid` starts true and the
loop breaks to false at the first slot with `valid == 0`. -/
def overallLoop (res : Fin 27 → validationResult) : List (Fin 27) → Bool
  | [] => true
  | s :: rest => if (res s).valid = 0 then false else overallLoop res rest

/-- The engine's result: the overall boolean plus the ordered outcome table. -/
structure AggregateResult where
  isValid : Bool
  outcomes : Fin 27 → validationResult

/-- The validation engine: run all 27 checks, join, and reduce the table. -/
def validate (g : Grid) : AggregateResult :=
  { isValid := overallLoop (finalResults g) (List.finRange 27)
    outcomes := finalResults g }

/-- What reaches `main` from the outside: whether `argc == 2`, whether
`fopen` succeeds, and the stream of integers `fscanf` yields from the file. -/
structure RunInput where
  argcOk : Bool
  fileOpens : Bool
  tokens : List Int

/-- C `loadSudoku` (lines 197-209): `fscanf(file, "%d", &sudoku[i][j])` in
row-major order, its result never checked — a cell beyond the stream keeps
whatever the uninitialized array `mem` held. -/
def loadSudoku (tokens : List Int) (mem : Grid) : Grid :=
  fun r c => (tokens[9 * r.val + c.val]?).getD (mem r c)

/-- One program run: exit code, and the engine report when one is produced. -/
structure RunOutcome where
  exitCode : Nat
  report : Option AggregateResult

/-- C `main` (lines 242-309): wrong argument count returns EXIT_FAILURE;
`loadSudoku` exits EXIT_FAILURE when `fopen` fails; otherwise the threads
run, are joined, the table is reduced and the run returns EXIT_SUCCESS. -/
def runSudokuValidator (inp : RunInput) (mem : Grid) : RunOutcome :=
  if inp.argcOk = false then { exitCode := 1, report := none }
  else if inp.fileOpens = false then { exitCode := 1, report := none }
  else { exitCode := 0, report := some (validate (loadSudoku inp.tokens mem)) }

/-- The row-major token stream a well-formed 81-integer file yields for a
given grid. -/
def gridTokens (g : Grid) : List Int :=
  (List.finRange 81).map fun k =>
    g ⟨k.val / 9, by have h := k.isLt; omega⟩ ⟨k.val % 9, by omega⟩

/-- Overwriting one cell of a grid. -/
def updateGrid (g : Grid) (r c : Fin 9) (v : Int) : Grid :=
  fun r' c' => if r' = r ∧ c' = c then v else g r' c'

/-- The digits a unit must contain, per the Sudoku rule. -/
def sudokuDigits : List Int := [1, 2, 3, 4, 5, 6, 7, 8, 9]

/-- The kind word each message carries. -/
def kindName : CheckUnit → String
  | .row _ => "row"
  | .col _ => "column"
  | .subgrid _ _ => "subgrid"

/-- The 1-based human-facing index each message carries. -/
def humanIndex : CheckUnit → Nat
  | .row i => i.val + 1
  | .col i => i.val + 1
  | .subgrid br bc => 3 * br.val + bc.val + 1

/-- The message a unit's thread writes for a given verdict. -/
def unitMsg : CheckUnit → Bool → String
  | .row i, ok => rowMsg i ok
  | .col i, ok => colMsg i ok
  | .subgrid br bc, ok => subgridMsg br bc ok

/-- Whether `pat` starts the character list `l`. -/
def startsWith : List Char → List Char → Bool
  | [], _ => true
  | _ :: _, [] => false
  | p :: ps, c :: cs => if p = c then startsWith ps cs else false

/-- Whether `pat` occurs contiguously inside the character list `l`. -/
def containsPat : List Char → List Char → Bool
  | pat, [] => startsWith pat []
  | pat, c :: cs => startsWith pat (c :: cs) || containsPat pat cs

/-- A grid given row by row; absent entries read as 0. -/
def gridOfLists (l : List (List Int)) : Grid :=
  fun r c => ((l[r.val]?).getD [])[c.val]?.getD 0

/-- A canonical solved Sudoku grid. -/
def goodGrid : Grid := gridOfLists
  [[5, 3, 4, 6, 7, 8, 9, 1, 2],
   [6, 7, 2, 1, 9, 5, 3, 4, 8],
   [1, 9, 8, 3, 4, 2, 5, 6, 7],
   [8, 5, 9, 7, 6, 1, 4, 2, 3],
   [4, 2, 6, 8, 5, 3, 7, 9, 1],
   [7, 1, 3, 9, 2, 4, 8, 5, 6],
   [9, 6, 1, 5, 3, 7, 2, 8, 4],
   [2, 8, 7, 4, 1, 9, 6, 3, 5],
   [3, 4, 5, 2, 8, 6, 1, 7, 9]]

/-- The all-zero grid (stands for arbitrary uninitialized memory). -/
def zeroGrid : Grid := fun _ _ => 0

/-- A run whose file opens but yields no integer at all: fewer than the 81
integers a well-formed 9x9 grid needs. -/
def emptyInput : RunInput := { argcOk := true, fileOpens := true, tokens := [] }

/-- The canonical grid with cell (4,4) zeroed (spec example 3). -/
def badCellGrid : Grid := updateGrid goodGrid 4 4 0

/-- The canonical grid with cell (0,0) set to 3, the value goodGrid holds
at (0,1): a row duplicate (spec example 2's shape). -/
def dupGrid : Grid := updateGrid goodGrid 0 0 3

/-! ### Helper lemmas -/

theorem mem_allUnits (u : CheckUnit) : u ∈ allUnits := by
  cases u with
  | row i => simp [allUnits]
  | col i => simp [allUnits]
  | subgrid br bc => simp [allUnits]

instance : Fintype CheckUnit where
  elems := allUnits.toFinset
  complete := fun u => List.mem_toFinset.mpr (mem_allUnits u)

/-- The scanning loop accepts exactly when every value is in range, none
duplicates another, and none was already marked seen. -/
theorem scanOk_iff : ∀ (l seen : List Int),
    scanOk l seen = true ↔ (∀ n ∈ l, (1 ≤ n ∧ n ≤ 9) ∧ n ∉ seen) ∧ l.Nodup
  | [], seen => by simp [scanOk]
  | n :: rest, seen => by
    by_cases hbad : n < 1 ∨ 9 < n ∨ n ∈ seen
    · rw [scanOk, if_pos hbad]
      constructor
      · intro h; exact absurd h (by decide)
      · rintro ⟨hall, -⟩
        rcases hall n (List.mem_cons_self n rest) with ⟨⟨h1, h2⟩, h3⟩
        rcases hbad with h | h | h
        · omega
        · omega
        · exact absurd h h3
    · rw [scanOk, if_neg hbad, scanOk_iff rest (n :: seen)]
      push_neg at hbad
      obtain ⟨hb1, hb2, hb3⟩ := hbad
      constructor
      · rintro ⟨hall, hnd⟩
        constructor
        · intro m hm
          rcases List.mem_cons.mp hm with rfl | hm'
          · exact ⟨⟨hb1, hb2⟩, hb3⟩
          · rcases hall m hm' with ⟨hr, hs⟩
            exact ⟨hr, fun hc => hs (List.mem_cons_of_mem _ hc)⟩
        · refine List.nodup_cons.mpr ⟨?_, hnd⟩
          intro hmem
          rcases hall n hmem with ⟨-, hs⟩
          exact hs (List.mem_cons_self n seen)
      · rintro ⟨hall, hnd⟩
        obtain ⟨hnin, hnd'⟩ := List.nodup_cons.mp hnd
        refine ⟨?_, hnd'⟩
        intro m hm
        rcases hall m (List.mem_cons_of_mem _ hm) with ⟨hr, hs⟩
        refine ⟨hr, ?_⟩
        intro hc
        rcases List.mem_cons.mp hc with rfl | hc'
        · exact hnin hm
        · exact hs hc'

/-- A unit's thread reports valid exactly when its nine cells are in range
and duplicate-free. -/
theorem unitValid_iff (g : Grid) (u : CheckUnit) :
    unitValid g u = true ↔
      (∀ n ∈ unitCells g u, 1 ≤ n ∧ n ≤ 9) ∧ (unitCells g u).Nodup := by
  rw [unitValid, scanOk_iff]
  simp

theorem unitPositions_length (u : CheckUnit) : (unitPositions u).length = 9 := by
  cases u with
  | row i => simp [unitPositions]
  | col i => simp [unitPositions]
  | subgrid br bc => fin_cases br <;> fin_cases bc <;> rfl

theorem unitCells_length (g : Grid) (u : CheckUnit) : (unitCells g u).length = 9 := by
  rw [unitCells, List.length_map, unitPositions_length]

/-- Nine distinct in-range values cover every digit: the pigeonhole step. -/
theorem mem_of_digit (l : List Int) (hlen : l.length = 9)
    (hall : ∀ n ∈ l, 1 ≤ n ∧ n ≤ 9) (hnd : l.Nodup)
    (v : Int) (h1 : 1 ≤ v) (h9 : v ≤ 9) : v ∈ l := by
  have hsub : l.toFinset ⊆ Finset.Icc (1 : ℤ) 9 := by
    intro x hx
    rcases hall x (List.mem_toFinset.mp hx) with ⟨ha, hb⟩
    exact Finset.mem_Icc.mpr ⟨ha, hb⟩
  have hcard : (Finset.Icc (1 : ℤ) 9).card ≤ l.toFinset.card := by
    rw [List.toFinset_card_of_nodup hnd, hlen, Int.card_Icc]
    decide
  have heq := Finset.eq_of_subset_of_card_le hsub hcard
  have hv : v ∈ l.toFinset := by
    rw [heq]; exact Finset.mem_Icc.mpr ⟨h1, h9⟩
  exact List.mem_toFinset.mp hv

/-- Which units scan the cell at (r, c): exactly its row, its column and
its block. -/
theorem mem_unitPositions (r c : Fin 9) (u : CheckUnit) :
    (r, c) ∈ unitPositions u ↔
      (u = .row r ∨ u = .col c ∨ u = .subgrid (blockOf r) (blockOf c)) := by
  cases u with
  | row i => simp [unitPositions, eq_comm]
  | col i => simp [unitPositions, eq_comm]
  | subgrid b1 b2 =>
    simp [unitPositions, subgridPositions, Prod.ext_iff, Fin.ext_iff, blockOf]
    constructor
    · rintro ⟨⟨x, hx⟩, ⟨y, hy⟩⟩
      have hx3 := x.isLt
      have hy3 := y.isLt
      omega
    · rintro ⟨h1, h2⟩
      have hr := r.isLt
      have hc := c.isLt
      refine ⟨⟨⟨r.val % 3, by omega⟩, ?_⟩, ⟨⟨c.val % 3, by omega⟩, ?_⟩⟩ <;> simp <;> omega

theorem updateGrid_same (g : Grid) (r c : Fin 9) (v : Int) :
    updateGrid g r c v r c = v := by
  simp [updateGrid]

theorem updateGrid_other (g : Grid) (r c : Fin 9) (v : Int) (r' c' : Fin 9)
    (h : (r', c') ≠ (r, c)) : updateGrid g r c v r' c' = g r' c' := by
  rw [updateGrid, if_neg]
  intro hh
  exact h (Prod.ext_iff.mpr hh)

/-- A unit that never scans the changed cell sees the same nine values. -/
theorem unitCells_update_not_mem (g : Grid) (r c : Fin 9) (v : Int) (u : CheckUnit)
    (h : (r, c) ∉ unitPositions u) :
    unitCells (updateGrid g r c v) u = unitCells g u := by
  rw [unitCells, unitCells]
  apply List.map_congr_left
  intro p hp
  obtain ⟨p1, p2⟩ := p
  apply updateGrid_other
  intro heq
  rw [heq] at hp
  exact h hp

theorem unitPositions_nodup (u : CheckUnit) : (unitPositions u).Nodup := by
  cases u with
  | row i => fin_cases i <;> decide
  | col i => fin_cases i <;> decide
  | subgrid br bc => fin_cases br <;> fin_cases bc <;> decide

/-- Two distinct scanned positions holding the same value give the unit a
duplicate. -/
theorem not_nodup_of_dup (g : Grid) (u : CheckUnit) (p q : Fin 9 × Fin 9)
    (hp : p ∈ unitPositions u) (hq : q ∈ unitPositions u) (hpq : p ≠ q)
    (hval : g p.1 p.2 = g q.1 q.2) : ¬(unitCells g u).Nodup := by
  intro hnd
  rw [unitCells, List.nodup_map_iff_inj_on (unitPositions_nodup u)] at hnd
  exact hpq (hnd p hp q hq hval)

theorem count_digit_eq_one (l : List Int) (hlen : l.length = 9)
    (hall : ∀ n ∈ l, 1 ≤ n ∧ n ≤ 9) (hnd : l.Nodup)
    (v : Int) (h1 : 1 ≤ v) (h9 : v ≤ 9) : l.count v = 1 :=
  List.count_eq_one_of_mem hnd (mem_of_digit l hlen hall hnd v h1 h9)

theorem scanCount_le : ∀ (l seen : List Int), scanCount l seen ≤ l.length
  | [], _ => Nat.le_refl 0
  | n :: rest, seen => by
    rw [scanCount]
    by_cases h : n < 1 ∨ 9 < n ∨ n ∈ seen
    · rw [if_pos h]
      simp
    · rw [if_neg h]
      have hle := scanCount_le rest (n :: seen)
      rw [List.length_cons]
      omega

theorem scanCount_of_ok : ∀ (l seen : List Int),
    scanOk l seen = true → scanCount l seen = l.length
  | [], _, _ => rfl
  | n :: rest, seen, h => by
    rw [scanOk] at h
    by_cases hb : n < 1 ∨ 9 < n ∨ n ∈ seen
    · rw [if_pos hb] at h
      exact absurd h (by decide)
    · rw [if_neg hb] at h
      rw [scanCount, if_neg hb, scanCount_of_ok rest (n :: seen) h, List.length_cons]
      omega

theorem scanCount_pos_of_not_ok : ∀ (l seen : List Int),
    scanOk l seen = false → 1 ≤ scanCount l seen
  | [], seen, h => by
    rw [scanOk] at h
    exact absurd h (by decide)
  | n :: rest, seen, _ => by
    rw [scanCount]
    by_cases hb : n < 1 ∨ 9 < n ∨ n ∈ seen
    · rw [if_pos hb]
    · rw [if_neg hb]
      omega

/-- Short-circuit: once the loop has failed, the cells beyond the inspected
prefix play no part — any continuation scans the same. -/
theorem scan_take_fail : ∀ (l seen : List Int), scanOk l seen = false →
    ∀ rest : List Int,
      scanOk (l.take (scanCount l seen) ++ rest) seen = false ∧
      scanCount (l.take (scanCount l seen) ++ rest) seen = scanCount l seen
  | [], seen, h => by
    rw [scanOk] at h
    exact absurd h (by decide)
  | n :: l, seen, h => by
    intro rest
    rw [scanOk] at h
    by_cases hb : n < 1 ∨ 9 < n ∨ n ∈ seen
    · rw [scanCount, if_pos hb]
      simp only [List.take_succ_cons, List.take_zero, List.cons_append, List.nil_append]
      constructor
      · rw [scanOk, if_pos hb]
      · rw [scanCount, if_pos hb]
    · rw [if_neg hb] at h
      rw [scanCount, if_neg hb]
      have ih := scan_take_fail l (n :: seen) h rest
      have htake : (n :: l).take (1 + scanCount l (n :: seen))
          = n :: l.take (scanCount l (n :: seen)) := by
        rw [Nat.add_comm]
        exact List.take_succ_cons
      rw [htake, List.cons_append]
      constructor
      · rw [scanOk, if_neg hb]
        exact ih.1
      · rw [scanCount, if_neg hb, ih.2]

/-- The cells before the failing one scan cleanly: the loop stops at the
first out-of-range or duplicate cell. -/
theorem scan_take_pred : ∀ (l seen : List Int), scanOk l seen = false →
    scanOk (l.take (scanCount l seen - 1)) seen = true
  | [], seen, h => by
    rw [scanOk] at h
    exact absurd h (by decide)
  | n :: l, seen, h => by
    rw [scanOk] at h
    by_cases hb : n < 1 ∨ 9 < n ∨ n ∈ seen
    · rw [scanCount, if_pos hb]
      rfl
    · rw [if_neg hb] at h
      rw [scanCount, if_neg hb]
      have h1 := scanCount_pos_of_not_ok l (n :: seen) h
      obtain ⟨k, hk⟩ : ∃ k, scanCount l (n :: seen) = k + 1 :=
        ⟨scanCount l (n :: seen) - 1, by omega⟩
      rw [hk]
      have h2 : 1 + (k + 1) - 1 = k + 1 := by omega
      rw [h2, List.take_succ_cons, scanOk, if_neg hb]
      have ih := scan_take_pred l (n :: seen) h
      rwa [hk] at ih

theorem applyWrites_not_mem (t : Fin 27 → validationResult)
    (l : List (Fin 27 × validationResult)) (s : Fin 27)
    (h : s ∉ l.map Prod.fst) : applyWrites t l s = t s := by
  induction l generalizing t with
  | nil => rfl
  | cons p rest ih =>
    obtain ⟨ps, pv⟩ := p
    simp only [List.map_cons, List.mem_cons] at h
    push_neg at h
    rw [applyWrites, ih _ h.2, Function.update_noteq h.1]

theorem applyWrites_mem (t : Fin 27 → validationResult)
    (l : List (Fin 27 × validationResult)) (s : Fin 27) (v : validationResult)
    (hnd : (l.map Prod.fst).Nodup) (hmem : (s, v) ∈ l) : applyWrites t l s = v := by
  induction l generalizing t with
  | nil => cases hmem
  | cons p rest ih =>
    obtain ⟨ps, pv⟩ := p
    simp only [List.map_cons, List.nodup_cons] at hnd
    rcases List.mem_cons.mp hmem with heq | hmem'
    · rw [Prod.ext_iff] at heq
      obtain ⟨h1, h2⟩ := heq
      cases h1; cases h2
      rw [applyWrites, applyWrites_not_mem _ _ _ hnd.1, Function.update_same]
    · rw [applyWrites]
      exact ih _ hnd.2 hmem'

theorem writes_keys (g : Grid) : (writes g).map Prod.fst = allUnits.map slotOf := by
  rw [writes, List.map_map]
  rfl

theorem allUnits_slots_nodup : (allUnits.map slotOf).Nodup := by decide

theorem slots_count (s : Fin 27) : (allUnits.map slotOf).count s = 1 := by
  revert s; decide

theorem slot_left_inv : ∀ u : CheckUnit, unitOfSlot (slotOf u) = u := by decide

theorem slot_right_inv : ∀ s : Fin 27, slotOf (unitOfSlot s) = s := by decide

theorem finalResults_apply (g : Grid) (u : CheckUnit) :
    finalResults g (slotOf u) = outcomeOf g u := by
  apply applyWrites_mem
  · rw [writes_keys]; exact allUnits_slots_nodup
  · exact List.mem_map_of_mem _ (mem_allUnits u)

theorem finalResults_eval (g : Grid) (s : Fin 27) :
    finalResults g s = outcomeOf g (unitOfSlot s) := by
  have h := finalResults_apply g (unitOfSlot s)
  rwa [slot_right_inv s] at h

theorem outcomeOf_valid (g : Grid) (u : CheckUnit) :
    (outcomeOf g u).valid = if unitValid g u then 1 else 0 := by
  cases u <;> rfl

theorem outcomeOf_message (g : Grid) (u : CheckUnit) :
    (outcomeOf g u).message = unitMsg u (unitValid g u) := by
  cases u <;> rfl

theorem outcome_valid_eq_one (g : Grid) (u : CheckUnit) :
    (outcomeOf g u).valid = 1 ↔ unitValid g u = true := by
  rw [outcomeOf_valid]
  by_cases h : unitValid g u <;> simp [h]

theorem outcome_valid_eq_zero (g : Grid) (u : CheckUnit) :
    (outcomeOf g u).valid = 0 ↔ unitValid g u = false := by
  rw [outcomeOf_valid]
  by_cases h : unitValid g u <;> simp [h]

theorem overallLoop_iff (res : Fin 27 → validationResult) :
    ∀ l : List (Fin 27), overallLoop res l = true ↔ ∀ s ∈ l, (res s).valid ≠ 0
  | [] => by simp [overallLoop]
  | s :: rest => by
    by_cases h : (res s).valid = 0
    · rw [overallLoop, if_pos h]
      constructor
      · intro hf; exact absurd hf (by decide)
      · intro hall; exact absurd h (hall s (List.mem_cons_self s rest))
    · rw [overallLoop, if_neg h, overallLoop_iff res rest]
      constructor
      · intro hall m hm
        rcases List.mem_cons.mp hm with rfl | hm'
        · exact h
        · exact hall m hm'
      · intro hall m hm
        exact hall m (List.mem_cons_of_mem _ hm)

/-- The reduction step: the overall boolean is true exactly when every slot
of the outcome table reports 1. -/
theorem validate_isValid_iff (g : Grid) :
    (validate g).isValid = true ↔ ∀ s : Fin 27, ((validate g).outcomes s).valid = 1 := by
  rw [show (validate g).isValid = overallLoop (finalResults g) (List.finRange 27) from rfl,
    overallLoop_iff]
  constructor
  · intro h s
    have hs := h s (List.mem_finRange s)
    rw [show (validate g).outcomes s = finalResults g s from rfl, finalResults_eval]
    rw [finalResults_eval, outcomeOf_valid] at hs
    rw [outcomeOf_valid]
    by_cases hb : unitValid g (unitOfSlot s)
    · rw [if_pos hb]
    · rw [if_neg hb] at hs
      exact absurd rfl hs
  · intro h s _
    have hx := h s
    rw [show (validate g).outcomes s = finalResults g s from rfl, finalResults_eval] at hx
    rw [finalResults_eval]
    intro hz
    rw [hz] at hx
    exact absurd hx (by decide)

/-- A well-formed 81-integer stream loads back exactly its grid. -/
theorem loadSudoku_gridTokens (g : Grid) (mem : Grid) :
    loadSudoku (gridTokens g) mem = g := by
  funext r c
  have hr := r.isLt
  have hc := c.isLt
  have hlt : 9 * r.val + c.val < 81 := by omega
  rw [loadSudoku, gridTokens, List.getElem?_map,
    List.getElem?_eq_getElem (by simpa using hlt)]
  simp only [List.getElem_finRange, Option.map_some', Option.getD_some, Fin.cast_mk]
  have e1 : (⟨(9 * r.val + c.val) / 9, by omega⟩ : Fin 9) = r := by
    apply Fin.ext
    show (9 * r.val + c.val) / 9 = r.val
    omega
  have e2 : (⟨(9 * r.val + c.val) % 9, by omega⟩ : Fin 9) = c := by
    apply Fin.ext
    show (9 * r.val + c.val) % 9 = c.val
    omega
  rw [e1, e2]

/-! ### The claims -/

/-- C1: `validate` returns an AggregateResult whose overall boolean is the
logical AND of the valid fields of all 27 outcomes; in particular, on a grid
whose every row, column and subgrid is a permutation of the digits 1-9 the
overall boolean is true and all 27 outcomes report valid. -/
theorem C1_aggregate_and (g : Grid) :
    ((validate g).isValid = true ↔ ∀ s : Fin 27, ((validate g).outcomes s).valid = 1) ∧
    ((∀ u : CheckUnit, (unitCells g u).Perm sudokuDigits) →
      (validate g).isValid = true ∧ ∀ s : Fin 27, ((validate g).outcomes s).valid = 1) := by
  refine ⟨validate_isValid_iff g, ?_⟩
  intro hperm
  have hall : ∀ s : Fin 27, ((validate g).outcomes s).valid = 1 := by
    intro s
    rw [show (validate g).outcomes s = finalResults g s from rfl, finalResults_eval,
      outcome_valid_eq_one, unitValid_iff]
    have hp := hperm (unitOfSlot s)
    constructor
    · intro n hn
      have hmem : n ∈ sudokuDigits := hp.mem_iff.mp hn
      rw [sudokuDigits] at hmem
      simp at hmem
      rcases hmem with rfl | rfl | rfl | rfl | rfl | rfl | rfl | rfl | rfl <;> decide
    · rw [hp.nodup_iff]
      decide
  exact ⟨(validate_isValid_iff g).mpr hall, hall⟩

/-- C1 witness: the canonical solved grid satisfies the permutation
hypothesis, and `validate` accepts it with all 27 outcomes valid. -/
theorem C1_aggregate_and_witness :
    (∀ u : CheckUnit, (unitCells goodGrid u).Perm sudokuDigits) ∧
    ((validate goodGrid).isValid = true ∧
      ∀ s : Fin 27, ((validate goodGrid).outcomes s).valid = 1) :=
  ⟨by decide, (C1_aggregate_and goodGrid).2 (by decide)⟩

/-- C2: a unit's outcome has valid = 1 exactly when its nine cells all lie
in [1,9] and contain no duplicate — equivalently, they are the digits 1-9
each occurring once. -/
theorem C2_unit_valid_iff (g : Grid) (u : CheckUnit) :
    ((validate g).outcomes (slotOf u)).valid = 1 ↔
      ((∀ n ∈ unitCells g u, 1 ≤ n ∧ n ≤ 9) ∧ (unitCells g u).Nodup ∧
        ∀ v : Int, 1 ≤ v → v ≤ 9 → (unitCells g u).count v = 1) := by
  rw [show (validate g).outcomes (slotOf u) = finalResults g (slotOf u) from rfl,
    finalResults_apply, outcome_valid_eq_one, unitValid_iff]
  constructor
  · rintro ⟨h1, h2⟩
    exact ⟨h1, h2, fun v hv1 hv9 => count_digit_eq_one _ (unitCells_length g u) h1 h2 v hv1 hv9⟩
  · rintro ⟨h1, h2, -⟩
    exact ⟨h1, h2⟩

/-- C3: a cell outside [1,9] makes every unit scanning it INVALID, and the
run still completes normally — exit code 0 with the full report produced. -/
theorem C3_out_of_range (g : Grid) (r c : Fin 9)
    (hout : g r c < 1 ∨ 9 < g r c) :
    (∀ u : CheckUnit, (r, c) ∈ unitPositions u →
        ((validate g).outcomes (slotOf u)).valid = 0) ∧
    (runSudokuValidator { argcOk := true, fileOpens := true, tokens := gridTokens g }
        zeroGrid).exitCode = 0 ∧
    (runSudokuValidator { argcOk := true, fileOpens := true, tokens := gridTokens g }
        zeroGrid).report = some (validate g) := by
  refine ⟨?_, rfl, ?_⟩
  · intro u hu
    rw [show (validate g).outcomes (slotOf u) = finalResults g (slotOf u) from rfl,
      finalResults_apply, outcome_valid_eq_zero]
    have hcell : g r c ∈ unitCells g u :=
      List.mem_map_of_mem (fun p => g p.1 p.2) hu
    rcases Bool.eq_false_or_eq_true (unitValid g u) with ht | hf
    · exfalso
      rcases (unitValid_iff g u).mp ht with ⟨hall, -⟩
      rcases hall (g r c) hcell with ⟨h1, h2⟩
      omega
    · exact hf
  · rw [show (runSudokuValidator
        { argcOk := true, fileOpens := true, tokens := gridTokens g } zeroGrid).report
        = some (validate (loadSudoku (gridTokens g) zeroGrid)) from rfl,
      loadSudoku_gridTokens]

/-- C3 witness: the canonical grid with cell (4,4) zeroed. -/
theorem C3_out_of_range_witness :
    (badCellGrid 4 4 < 1 ∨ 9 < badCellGrid 4 4) ∧
    ((∀ u : CheckUnit, ((4 : Fin 9), (4 : Fin 9)) ∈ unitPositions u →
        ((validate badCellGrid).outcomes (slotOf u)).valid = 0) ∧
      (runSudokuValidator
          { argcOk := true, fileOpens := true, tokens := gridTokens badCellGrid }
          zeroGrid).exitCode = 0 ∧
      (runSudokuValidator
          { argcOk := true, fileOpens := true, tokens := gridTokens badCellGrid }
          zeroGrid).report = some (validate badCellGrid)) :=
  ⟨by decide, C3_out_of_range badCellGrid 4 4 (by decide)⟩

theorem unitValid_false_of_dup (g : Grid) (u : CheckUnit) (p q : Fin 9 × Fin 9)
    (hp : p ∈ unitPositions u) (hq : q ∈ unitPositions u) (hpq : p ≠ q)
    (hval : g p.1 p.2 = g q.1 q.2) : unitValid g u = false := by
  cases hb : unitValid g u
  · rfl
  · exfalso
    exact not_nodup_of_dup g u p q hp hq hpq hval ((unitValid_iff g u).mp hb).2

theorem msg_nonempty : ∀ (u : CheckUnit) (b : Bool), unitMsg u b ≠ "" := by decide

theorem message_props : ∀ (u : CheckUnit) (b : Bool),
    (unitMsg u b).length < 100 ∧
    containsPat (kindName u).data (unitMsg u b).data = true ∧
    containsPat (toString (humanIndex u)).data (unitMsg u b).data = true ∧
    containsPat (verdictStr b).data (unitMsg u b).data = true := by decide

/-- C5: the slot assignment is the fixed bijection rows 0-8, columns 9-17,
subgrids 18-26 row-major by block; no two units share a slot, and
checkSubgrid's in-thread index arithmetic agrees with main's creation-time
arithmetic. -/
theorem C5_slot_bijection :
    Function.Bijective slotOf ∧
    (∀ i : Fin 9, (slotOf (.row i)).val = i.val) ∧
    (∀ i : Fin 9, (slotOf (.col i)).val = 9 + i.val) ∧
    (∀ br bc : Fin 3, (slotOf (.subgrid br bc)).val = 18 + 3 * br.val + bc.val) ∧
    (∀ br bc : Fin 3,
      subgridIndexChecker (3 * br.val) (3 * bc.val)
        = subgridIndexMain (3 * br.val) (3 * bc.val) ∧
      subgridIndexMain (3 * br.val) (3 * bc.val) = 18 + 3 * br.val + bc.val) := by
  refine ⟨Function.bijective_iff_has_inverse.mpr
    ⟨unitOfSlot, slot_left_inv, slot_right_inv⟩, fun i => rfl, fun i => rfl, ?_, ?_⟩
  · intro br bc
    show subgridIndexChecker (3 * br.val) (3 * bc.val) = _
    rw [subgridIndexChecker]
    have h1 := br.isLt
    have h2 := bc.isLt
    omega
  · intro br bc
    rw [subgridIndexChecker, subgridIndexMain]
    have h1 := br.isLt
    have h2 := bc.isLt
    constructor <;> omega

/-- C6: every check unit inspects at most 9 cells; a valid unit inspects
exactly its 9; an invalid one stops at the first failing cell — the cells
before it scan cleanly, and nothing appended after the inspected prefix can
change the verdict or the inspection count. -/
theorem C6_short_circuit (g : Grid) (u : CheckUnit) :
    scanCount (unitCells g u) [] ≤ 9 ∧
    (unitValid g u = true → scanCount (unitCells g u) [] = 9) ∧
    (unitValid g u = false →
      scanOk ((unitCells g u).take (scanCount (unitCells g u) [] - 1)) [] = true ∧
      ∀ rest : List Int,
        scanOk ((unitCells g u).take (scanCount (unitCells g u) []) ++ rest) [] = false ∧
        scanCount ((unitCells g u).take (scanCount (unitCells g u) []) ++ rest) []
          = scanCount (unitCells g u) []) := by
  refine ⟨?_, ?_, ?_⟩
  · have h := scanCount_le (unitCells g u) []
    rw [unitCells_length] at h
    exact h
  · intro h
    rw [scanCount_of_ok _ _ h, unitCells_length]
  · intro h
    exact ⟨scan_take_pred _ _ h, fun rest => scan_take_fail _ _ h rest⟩

/-- C8: the program exits 0 exactly when the argument count is right and
the source opens — regardless of the puzzle's content — and 1 otherwise. -/
theorem C8_exit_codes (inp : RunInput) (mem : Grid) :
    ((runSudokuValidator inp mem).exitCode = 0 ↔
      (inp.argcOk = true ∧ inp.fileOpens = true)) ∧
    ((runSudokuValidator inp mem).exitCode = 0 ∨
      (runSudokuValidator inp mem).exitCode = 1) := by
  rcases inp with ⟨a, f, toks⟩
  cases a <;> cases f <;> simp [runSudokuValidator]

/-- C9: before execution every slot holds the zero-initialized sentinel,
which no produced outcome ever equals (every real message is nonempty);
each slot is written exactly once, by the unit owning it; and aggregation
reads the joined table unchanged. -/
theorem C9_single_writer (g : Grid) :
    (∀ s : Fin 27, initResults s = { valid := 0, message := "" }) ∧
    (∀ s : Fin 27, ∀ u : CheckUnit, outcomeOf g u ≠ initResults s) ∧
    (∀ s : Fin 27, ((writes g).map Prod.fst).count s = 1) ∧
    (∀ u : CheckUnit, (validate g).outcomes (slotOf u) = outcomeOf g u) ∧
    ((validate g).outcomes = finalResults g) := by
  refine ⟨fun s => rfl, ?_, ?_, finalResults_apply g, rfl⟩
  · intro s u heq
    have hm : (outcomeOf g u).message = "" := by rw [heq]; rfl
    rw [outcomeOf_message] at hm
    exact msg_nonempty u (unitValid g u) hm
  · intro s
    rw [writes_keys]
    exact slots_count s

/-- C10: every message a check writes is strictly shorter than the 100-byte
buffer (so sprintf never overflows it), and it carries the unit kind, the
1-based unit index, and the verdict. -/
theorem C10_messages (g : Grid) (u : CheckUnit) :
    ((outcomeOf g u).message).length < 100 ∧
    containsPat (kindName u).data ((outcomeOf g u).message).data = true ∧
    containsPat (toString (humanIndex u)).data ((outcomeOf g u).message).data = true ∧
    containsPat (verdictStr (unitValid g u)).data ((outcomeOf g u).message).data = true := by
  rw [outcomeOf_message]
  exact message_props u (unitValid g u)

/-- C4: from a grid all 27 of whose units are valid, setting one cell (r, c)
to a value v already present elsewhere in its row makes validate return
overall false; exactly the units containing the resulting duplicate — row r,
column c and the block of (r, c), where the duplication indeed arises — are
INVALID, and every other unit stays valid. -/
theorem C4_row_duplicate (g : Grid) (r c c' : Fin 9) (v : Int)
    (hall : ∀ u : CheckUnit, unitValid g u = true)
    (hne : c' ≠ c) (hv : g r c' = v) :
    (validate (updateGrid g r c v)).isValid = false ∧
    ∀ u : CheckUnit,
      ((validate (updateGrid g r c v)).outcomes (slotOf u)).valid = 0 ↔
        (u = .row r ∨ u = .col c ∨ u = .subgrid (blockOf r) (blockOf c)) := by
  have hrowAll := (unitValid_iff g (.row r)).mp (hall _)
  have hcolAll := (unitValid_iff g (.col c)).mp (hall _)
  have hsubAll := (unitValid_iff g (.subgrid (blockOf r) (blockOf c))).mp (hall _)
  have hmemc : ((r, c) : Fin 9 × Fin 9) ∈ unitPositions (.row r) :=
    (mem_unitPositions r c _).mpr (Or.inl rfl)
  have hmemc' : ((r, c') : Fin 9 × Fin 9) ∈ unitPositions (.row r) :=
    (mem_unitPositions r c' _).mpr (Or.inl rfl)
  have hvmem : v ∈ unitCells g (.row r) := by
    have h := List.mem_map_of_mem (fun p => g p.1 p.2) hmemc'
    rwa [show (fun p => g p.1 p.2) ((r, c') : Fin 9 × Fin 9) = v from hv] at h
  have hvrange := hrowAll.1 v hvmem
  have hpq : ((r, c) : Fin 9 × Fin 9) ≠ (r, c') := by
    intro hp
    rw [Prod.ext_iff] at hp
    exact hne hp.2.symm
  have hpq' : ((r, c') : Fin 9 × Fin 9) ≠ (r, c) := fun h => hpq h.symm
  -- the untouched grid does not hold v at (r, c): its row is duplicate-free
  have hgrc : g r c ≠ v := by
    intro heq
    exact not_nodup_of_dup g (.row r) (r, c) (r, c') hmemc hmemc' hpq
      (heq.trans hv.symm) hrowAll.2
  -- column c of g holds v somewhere, necessarily at a row other than r
  have hvcol : v ∈ unitCells g (.col c) :=
    mem_of_digit _ (unitCells_length g _) hcolAll.1 hcolAll.2 v hvrange.1 hvrange.2
  obtain ⟨p, hpmem, hpval⟩ := List.mem_map.mp hvcol
  obtain ⟨r1, c1⟩ := p
  have hc1 : c1 = c := by
    rcases (mem_unitPositions r1 c1 _).mp hpmem with h | h | h
    · exact CheckUnit.noConfusion h
    · injection h with h'
      exact h'.symm
    · exact CheckUnit.noConfusion h
  rw [hc1] at hpval hpmem
  have hr1 : r1 ≠ r := by
    intro heq
    rw [heq] at hpval
    exact hgrc hpval
  -- the subgrid of (r, c) holds v somewhere other than (r, c)
  have hvsub : v ∈ unitCells g (.subgrid (blockOf r) (blockOf c)) :=
    mem_of_digit _ (unitCells_length g _) hsubAll.1 hsubAll.2 v hvrange.1 hvrange.2
  obtain ⟨q, hqmem, hqval⟩ := List.mem_map.mp hvsub
  have hqne : q ≠ (r, c) := by
    intro heq
    rw [heq] at hqval
    exact hgrc hqval
  -- the three affected units fail on the updated grid
  have hrow' : unitValid (updateGrid g r c v) (.row r) = false := by
    apply unitValid_false_of_dup _ _ (r, c) (r, c') hmemc hmemc' hpq
    show updateGrid g r c v r c = updateGrid g r c v r c'
    rw [updateGrid_same, updateGrid_other g r c v r c' hpq']
    exact hv.symm
  have hcol' : unitValid (updateGrid g r c v) (.col c) = false := by
    apply unitValid_false_of_dup _ _ (r, c) (r1, c)
      ((mem_unitPositions r c _).mpr (Or.inr (Or.inl rfl)))
      ((mem_unitPositions r1 c _).mpr (Or.inr (Or.inl rfl)))
      (by
        intro hp
        rw [Prod.ext_iff] at hp
        exact hr1 hp.1.symm)
    show updateGrid g r c v r c = updateGrid g r c v r1 c
    rw [updateGrid_same, updateGrid_other g r c v r1 c
      (by
        intro hp
        rw [Prod.ext_iff] at hp
        exact hr1 hp.1)]
    exact hpval.symm
  have hsub' : unitValid (updateGrid g r c v)
      (.subgrid (blockOf r) (blockOf c)) = false := by
    apply unitValid_false_of_dup _ _ (r, c) q
      ((mem_unitPositions r c _).mpr (Or.inr (Or.inr rfl))) hqmem
      (fun h => hqne h.symm)
    show updateGrid g r c v r c = updateGrid g r c v q.1 q.2
    rw [updateGrid_same, updateGrid_other g r c v q.1 q.2
      (by
        intro hp
        apply hqne
        rw [← hp])]
    exact hqval.symm
  -- every unit away from the changed cell keeps its verdict
  have hother : ∀ u : CheckUnit, u ≠ .row r → u ≠ .col c →
      u ≠ .subgrid (blockOf r) (blockOf c) →
      unitValid (updateGrid g r c v) u = true := by
    intro u h1 h2 h3
    have hnm : (r, c) ∉ unitPositions u := by
      rw [mem_unitPositions]
      rintro (h | h | h)
      · exact h1 h
      · exact h2 h
      · exact h3 h
    show scanOk (unitCells (updateGrid g r c v) u) [] = true
    rw [unitCells_update_not_mem g r c v u hnm]
    exact hall u
  have hiff : ∀ u : CheckUnit,
      ((validate (updateGrid g r c v)).outcomes (slotOf u)).valid = 0 ↔
        (u = .row r ∨ u = .col c ∨ u = .subgrid (blockOf r) (blockOf c)) := by
    intro u
    rw [show (validate (updateGrid g r c v)).outcomes (slotOf u)
        = finalResults (updateGrid g r c v) (slotOf u) from rfl,
      finalResults_apply, outcome_valid_eq_zero]
    constructor
    · intro hf
      by_contra hcon
      push_neg at hcon
      obtain ⟨h1, h2, h3⟩ := hcon
      rw [hother u h1 h2 h3] at hf
      exact absurd hf (by decide)
    · rintro (rfl | rfl | rfl)
      · exact hrow'
      · exact hcol'
      · exact hsub'
  refine ⟨?_, hiff⟩
  cases hb : (validate (updateGrid g r c v)).isValid
  · rfl
  · exfalso
    have h1 := (validate_isValid_iff _).mp hb (slotOf (.row r))
    have h0 := (hiff (.row r)).mpr (Or.inl rfl)
    rw [h1] at h0
    exact absurd h0 (by decide)

/-- C4 witness: the canonical grid with cell (0,0) set to 3 (the value at
(0,1)) — row 0, column 0 and the top-left block fail, the rest stay valid. -/
theorem C4_row_duplicate_witness :
    ((∀ u : CheckUnit, unitValid goodGrid u = true) ∧
      (1 : Fin 9) ≠ 0 ∧ goodGrid 0 1 = 3) ∧
    ((validate (updateGrid goodGrid 0 0 3)).isValid = false ∧
      ∀ u : CheckUnit,
        ((validate (updateGrid goodGrid 0 0 3)).outcomes (slotOf u)).valid = 0 ↔
          (u = .row 0 ∨ u = .col 0 ∨ u = .subgrid (blockOf 0) (blockOf 0))) :=
  ⟨⟨by decide, by decide, by decide⟩,
    C4_row_duplicate goodGrid 0 0 1 3 (by decide) (by decide) (by decide)⟩

/-- C7 counterexample: a source yielding no integers at all (fewer than the
81 a well-formed grid needs) is NOT rejected — the run exits 0 and produces
the full 27-outcome report, slot 0 holding a real INVALID outcome. -/
theorem C7_counterexample :
    emptyInput.tokens.length < 81 ∧
    (runSudokuValidator emptyInput zeroGrid).exitCode = 0 ∧
    (runSudokuValidator emptyInput zeroGrid).report
      = some (validate (loadSudoku [] zeroGrid)) ∧
    ((validate (loadSudoku [] zeroGrid)).outcomes ⟨0, by omega⟩).valid = 0 ∧
    ((validate (loadSudoku [] zeroGrid)).outcomes ⟨0, by omega⟩).message
      = "Thread #  1 (row 1) is INVALID\n" := by
  refine ⟨by decide, rfl, rfl, by decide, by decide⟩

/-- C7 amended: the code rejects no malformed grid. A run aborts before any
check task (no report, exit 1) exactly when the argument count is wrong or
the source cannot be opened; whenever the source opens, the run produces
all 27 outcomes even from fewer than 81 integers — the missing cells
silently keep the prior in-memory values. -/
theorem C7_no_malformed_rejection (inp : RunInput) (mem : Grid) :
    ((runSudokuValidator inp mem).report = none ↔
      (inp.argcOk = false ∨ inp.fileOpens = false)) ∧
    ((runSudokuValidator inp mem).report = none →
      (runSudokuValidator inp mem).exitCode = 1) ∧
    (inp.argcOk = true → inp.fileOpens = true →
      (runSudokuValidator inp mem).report
        = some (validate (loadSudoku inp.tokens mem))) := by
  rcases inp with ⟨a, f, toks⟩
  cases a <;> cases f <;> simp [runSudokuValidator]

end SudokuValidator
